import Mathlib

/-!
Shallow embedding of `tlpin.c` (TLPIN repository): the execution engine over a
tagged value stack, and the lexer (`lex_program` and its helpers, present in the
source file as an evolutionary draft).

Modelling conventions:
* `double` (`float64_t`) is modelled by `ℚ`; every arithmetic fact the theorems
  use involves only small integers, on which IEEE double addition and
  subtraction are exact.
* A C dynamic array used as a stack (`ValueArray`) is modelled by a `List` whose
  head is the most recently appended element (`elements[count - 1]`), so
  `array_append` is cons and `elements[count - 2]` is the head of the tail.
* Functions that call `exit(1)` are modelled with `Except`, the error carrying
  exactly the data the C code prints before exiting.
-/

namespace TLPIN

/-- `ValueType` tag of the C tagged union `Value` together with its payloads:
`VALUE_NUMBER` (float64), `VALUE_CHARACTER` (uint8_t), `VALUE_ARRAY` (nested
`ValueArray`). -/
inductive Value where
  | Number : ℚ → Value
  | Character : UInt8 → Value
  | Array : List Value → Value

/-- Error kinds of the two runtime assertions in `native_pona` / `native_ike`:
`assert(stack->count >= 2 && "Stack Underflow")` and
`assert(type == VALUE_NUMBER && "TODO: handle non-number types")`. -/
inductive ExecError where
  | StackUnderflow
  | TypeMismatch
deriving DecidableEq

/-- Result of running (part of) a program against the value stack.  An
assertion failure aborts the process before any write to the stack, so the
error constructor carries the stack as it stood at the abort. -/
inductive ExecResult where
  | ok : List Value → ExecResult
  | err : ExecError → List Value → ExecResult

/-- `native_pona` (tlpin.c): asserts `count >= 2`, asserts the two topmost
elements are numbers (checking `elements[count-2]` first), then replaces them
with their sum (`a + b` where `a` is `elements[count-2]`). -/
def native_pona (stack : List Value) : ExecResult :=
  match stack with
  | b :: a :: rest =>
    match a with
    | .Number x =>
      match b with
      | .Number y => .ok (Value.Number (x + y) :: rest)
      | _ => .err .TypeMismatch stack
    | _ => .err .TypeMismatch stack
  | _ => .err .StackUnderflow stack

/-- `native_ike` (tlpin.c): as `native_pona` but the result is the difference
`a - b` where `a` is `elements[count-2]` and `b` is `elements[count-1]`. -/
def native_ike (stack : List Value) : ExecResult :=
  match stack with
  | b :: a :: rest =>
    match a with
    | .Number x =>
      match b with
      | .Number y => .ok (Value.Number (x - y) :: rest)
      | _ => .err .TypeMismatch stack
    | _ => .err .TypeMismatch stack
  | _ => .err .StackUnderflow stack

/-- The two native operations the program ever stores in a `FUNCTION_NATIVE`
node (`&native_pona` and `&native_ike` function pointers). -/
inductive NativeFunction where
  | pona
  | ike
deriving DecidableEq

/-- Dispatch of the `as_native` function pointer. -/
def run_native : NativeFunction → List Value → ExecResult
  | .pona => native_pona
  | .ike => native_ike

/-- `FunctionType` tag and payloads of the C tagged union `Function`:
`FUNCTION_NATIVE`, `FUNCTION_DEFINED` (child `FunctionArray`),
`FUNCTION_LITERAL`. -/
inductive Function where
  | Native : NativeFunction → Function
  | Defined : List Function → Function
  | Literal : Value → Function

/-- `execute_functions` (tlpin.c): for each function node in order,
`FUNCTION_DEFINED` recursively executes the child sequence against the same
stack, `FUNCTION_NATIVE` invokes the native, `FUNCTION_LITERAL` appends the
literal value to the stack (`array_append`).  An assertion failure inside a
native stops the whole run. -/
def execute_functions : List Function → List Value → ExecResult
  | [], stack => .ok stack
  | .Defined gs :: fs, stack =>
    match execute_functions gs stack with
    | .ok stack2 => execute_functions fs stack2
    | .err e s => .err e s
  | .Native n :: fs, stack =>
    match run_native n stack with
    | .ok stack2 => execute_functions fs stack2
    | .err e s => .err e s
  | .Literal v :: fs, stack => execute_functions fs (v :: stack)

/-- `initial_program` (tlpin.c): literal 30, literal 10, add, literal 20,
subtract. -/
def initial_program : List Function :=
  [ .Literal (.Number 30)
  , .Literal (.Number 10)
  , .Native .pona
  , .Literal (.Number 20)
  , .Native .ike ]

/-- Composition of execution results: run the continuation on the stack when
the first part succeeded, propagate the error otherwise. -/
def exec_then (r : ExecResult) (k : List Value → ExecResult) : ExecResult :=
  match r with
  | .ok s => k s
  | .err e s => .err e s

/-- `true` iff the stack has at least two elements and the two topmost
(most recently appended) elements are both of `Number` kind. -/
def top_two_numbers : List Value → Bool
  | .Number _ :: .Number _ :: _ => true
  | _ => false

end TLPIN

namespace TLPIN

/-- `TokenType` (tlpin.c). -/
inductive TokenType where
  | TOKEN_STRING
  | TOKEN_CHARACTER
  | TOKEN_FLOAT
  | TOKEN_ATOM
  | TOKEN_NEWLINE
  | TOKEN_PARENTHESIS
  | TOKEN_BRACKET
deriving DecidableEq

/-- The `Token` payload union (tlpin.c), one constructor per union member. -/
inductive Token where
  | as_string : List Char → Token
  | as_character : Char → Token
  | as_float : ℚ → Token
  | as_atom : List Char → Token
  | as_newline : Char → Token
  | as_parenthesis : Char → Token
  | as_bracket : Char → Token
deriving DecidableEq

/-- `Lexeme` (tlpin.c): a positioned token. -/
structure Lexeme where
  type : TokenType
  token : Token
  line : Nat
  column : Nat
deriving DecidableEq

/-- `SstringConvertResult` (sized-string.h); the `SUCCESS` constructor also
carries the converted value, which the C code returns separately. -/
inductive SstringConvertResult where
  | SSTRING_CONVERT_SUCCESS : ℚ → SstringConvertResult
  | SSTRING_CONVERT_PARSE_FAIL
  | SSTRING_CONVERT_UNDERFLOW
  | SSTRING_CONVERT_OVERFLOW
deriving DecidableEq

/-- The non-fatal diagnostics the lexer prints to stderr before setting
`context->failed` and continuing. -/
inductive Diagnostic where
  | FloatUnderflow (line column : Nat) (text : List Char)
  | FloatOverflow (line column : Nat) (text : List Char)
  | UnknownEscape (line column : Nat) (character : Char)
deriving DecidableEq

/-- The ways `lex_program` reaches `exit(1)`: the three immediately-fatal
errors (each carrying the data printed before exiting), and the end-of-pass
exit taken when `context.failed` was set, carrying the diagnostics printed
during the pass. -/
inductive LexFatal where
  | UnterminatedString (line column : Nat)
  | UnterminatedCharacterLiteral (line column : Nat)
  | TokenTooLarge (line column : Nat) (buffer : List Char)
  | Failed (diagnostics : List Diagnostic)
deriving DecidableEq

/-- `LexerContext` (tlpin.c) minus the cursor (`program`/`program_index`),
which the Lean functions thread as an explicit remaining-input list.  The
`SIZE_MAX` "unset" sentinel of `multibyte_line`/`multibyte_column` is modelled
as `none`; `diagnostics` models the stderr stream. -/
structure LexerContext where
  token_buffer : List Char
  lexemes : List Lexeme
  line : Nat
  column : Nat
  multibyte_line : Option Nat
  multibyte_column : Option Nat
  failed : Bool
  diagnostics : List Diagnostic
deriving DecidableEq

/-- `MAX_TOKEN_SIZE` (tlpin.c). -/
def MAX_TOKEN_SIZE : Nat := 256

/-- The single-quote character (spelled `'\''` in the C source). -/
def quote_character : Char := Char.ofNat 39

/-- `try_append_multibyte_lexeme` (tlpin.c): flushing the pending
accumulation.  Empty buffer: no-op.  Otherwise try the numeric conversion:
success emits a `TOKEN_FLOAT`; underflow/overflow prints a diagnostic and sets
`failed`, then — like parse failure — control falls through to the atom
classification, so a `TOKEN_ATOM` with the raw text is emitted as well.  In
every non-empty case the buffer is cleared and the start-position sentinels
reset. -/
def try_append_multibyte_lexeme (conv : List Char → SstringConvertResult)
    (ctx : LexerContext) : LexerContext :=
  if ctx.token_buffer.isEmpty then ctx
  else
    let lline := ctx.multibyte_line.getD 0
    let lcolumn := ctx.multibyte_column.getD 0
    let ctx2 :=
      match conv ctx.token_buffer with
      | .SSTRING_CONVERT_SUCCESS v =>
        { ctx with lexemes :=
            ctx.lexemes ++ [Lexeme.mk .TOKEN_FLOAT (.as_float v) lline lcolumn] }
      | .SSTRING_CONVERT_UNDERFLOW =>
        { ctx with
          diagnostics := ctx.diagnostics ++
            [Diagnostic.FloatUnderflow lline lcolumn ctx.token_buffer],
          failed := true,
          lexemes := ctx.lexemes ++
            [Lexeme.mk .TOKEN_ATOM (.as_atom ctx.token_buffer) lline lcolumn] }
      | .SSTRING_CONVERT_OVERFLOW =>
        { ctx with
          diagnostics := ctx.diagnostics ++
            [Diagnostic.FloatOverflow lline lcolumn ctx.token_buffer],
          failed := true,
          lexemes := ctx.lexemes ++
            [Lexeme.mk .TOKEN_ATOM (.as_atom ctx.token_buffer) lline lcolumn] }
      | .SSTRING_CONVERT_PARSE_FAIL =>
        { ctx with lexemes := ctx.lexemes ++
            [Lexeme.mk .TOKEN_ATOM (.as_atom ctx.token_buffer) lline lcolumn] }
    { ctx2 with
      token_buffer := []
      multibyte_line := none
      multibyte_column := none }

/-- Scan loop of `lex_string` (tlpin.c).  `string` is the escape-resolved
payload accumulated so far and `rest` the input after the characters consumed
so far (the opening quote was consumed by `lex_string`).  A literal newline
advances the position but is not added to the payload; an unknown escape
prints a diagnostic at the backslash's position, sets `failed` and continues;
end of input is the fatal unterminated-string error reported at the start
position recorded in the `multibyte` fields.  On the closing quote the String
lexeme is emitted at the recorded start position and the input after the
quote is returned (the caller's loop increment then skips one further
character). -/
def lex_string_loop (ctx : LexerContext) (string : List Char) :
    List Char → Except LexFatal (LexerContext × List Char)
  | [] =>
    .error (.UnterminatedString (ctx.multibyte_line.getD 0)
      (ctx.multibyte_column.getD 0))
  | c :: rest =>
    if c = '"' then
      let ctx := { ctx with column := ctx.column + 1 }
      .ok ({ ctx with
             lexemes := ctx.lexemes ++
               [Lexeme.mk .TOKEN_STRING (.as_string string)
                  (ctx.multibyte_line.getD 0) (ctx.multibyte_column.getD 0)],
             multibyte_line := none, multibyte_column := none }, rest)
    else if c = '\n' then
      lex_string_loop { ctx with line := ctx.line + 1, column := 0 } string rest
    else if c = '\\' then
      match rest with
      | [] =>
        .error (.UnterminatedString (ctx.multibyte_line.getD 0)
          (ctx.multibyte_column.getD 0))
      | d :: rest2 =>
        if d = '"' ∨ d = '\\' then
          lex_string_loop { ctx with column := ctx.column + 2 }
            (string ++ [d]) rest2
        else if d = 'n' then
          lex_string_loop { ctx with column := ctx.column + 2 }
            (string ++ ['\n']) rest2
        else if d = 't' then
          lex_string_loop { ctx with column := ctx.column + 2 }
            (string ++ ['\t']) rest2
        else
          lex_string_loop
            { ctx with
              diagnostics := ctx.diagnostics ++
                [Diagnostic.UnknownEscape ctx.line ctx.column d],
              failed := true,
              column := ctx.column + 2 } string rest2
    else
      lex_string_loop { ctx with column := ctx.column + 1 } (string ++ [c]) rest

/-- `lex_string` (tlpin.c): record the literal's start position (the position
of the opening quote), step past the quote, and scan.  `rest` is the input
after the opening quote. -/
def lex_string (ctx : LexerContext) (rest : List Char) :
    Except LexFatal (LexerContext × List Char) :=
  let ctx := { ctx with
    multibyte_line := some ctx.line
    multibyte_column := some ctx.column }
  let ctx := { ctx with column := ctx.column + 1 }
  lex_string_loop ctx [] rest

/-- `lex_character_literal` (tlpin.c).  `rest` is the input after the opening
single quote.  An unknown escape prints a diagnostic, sets `failed` and keeps
the raw character; a missing closing quote (or running out of input at any of
the three read points) is the fatal unterminated-character-literal error
reported at the start position. -/
def lex_character_literal (ctx : LexerContext) (rest : List Char) :
    Except LexFatal (LexerContext × List Char) :=
  let mline := ctx.line
  let mcolumn := ctx.column
  let ctx := { ctx with
    multibyte_line := some mline
    multibyte_column := some mcolumn
    column := ctx.column + 1 }
  match rest with
  | [] => .error (.UnterminatedCharacterLiteral mline mcolumn)
  | c :: rest1 =>
    let step : Except LexFatal (LexerContext × Char × List Char) :=
      if c = '\\' then
        let ctx := { ctx with column := ctx.column + 1 }
        match rest1 with
        | [] => .error (.UnterminatedCharacterLiteral mline mcolumn)
        | d :: rest2 =>
          if d = quote_character then .ok (ctx, quote_character, rest2)
          else if d = '\\' then .ok (ctx, '\\', rest2)
          else if d = 'n' then .ok (ctx, '\n', rest2)
          else if d = 't' then .ok (ctx, '\t', rest2)
          else
            .ok ({ ctx with
                   diagnostics := ctx.diagnostics ++
                     [Diagnostic.UnknownEscape ctx.line ctx.column d],
                   failed := true }, d, rest2)
      else .ok (ctx, c, rest1)
    match step with
    | .error e => .error e
    | .ok (ctx, character, rest2) =>
      let ctx := { ctx with column := ctx.column + 1 }
      match rest2 with
      | [] => .error (.UnterminatedCharacterLiteral mline mcolumn)
      | q :: rest3 =>
        if q = quote_character then
          let ctx := { ctx with column := ctx.column + 1 }
          .ok ({ ctx with
                 lexemes := ctx.lexemes ++
                   [Lexeme.mk .TOKEN_CHARACTER (.as_character character)
                      mline mcolumn],
                 multibyte_line := none, multibyte_column := none }, rest3)
        else .error (.UnterminatedCharacterLiteral mline mcolumn)

/-- One iteration of the dispatch `switch` in `lex_program`'s scan loop
(tlpin.c).  `c` is the current character and `rest` the input after it; the
result is the updated context together with the input the loop continues
with.  The sub-lexers advance the shared cursor themselves and the loop's own
increment then skips one further character, hence the `List.drop 1` on their
returned input. -/
def lex_dispatch (conv : List Char → SstringConvertResult) (ctx : LexerContext)
    (c : Char) (rest : List Char) :
    Except LexFatal (LexerContext × List Char) :=
  if c = '\n' then
    let ctx := try_append_multibyte_lexeme conv ctx
    let ctx := { ctx with lexemes := ctx.lexemes ++
      [Lexeme.mk .TOKEN_NEWLINE (.as_newline c) ctx.line ctx.column] }
    .ok ({ ctx with line := ctx.line + 1, column := 0 }, rest)
  else if c = '(' ∨ c = ')' then
    let ctx := try_append_multibyte_lexeme conv ctx
    let ctx := { ctx with lexemes := ctx.lexemes ++
      [Lexeme.mk .TOKEN_PARENTHESIS (.as_parenthesis c) ctx.line ctx.column] }
    .ok ({ ctx with column := ctx.column + 1 }, rest)
  else if c = '\x7b' ∨ c = '\x7d' then
    let ctx := try_append_multibyte_lexeme conv ctx
    let ctx := { ctx with lexemes := ctx.lexemes ++
      [Lexeme.mk .TOKEN_BRACKET (.as_bracket c) ctx.line ctx.column] }
    .ok ({ ctx with column := ctx.column + 1 }, rest)
  else if c = '"' then
    match lex_string (try_append_multibyte_lexeme conv ctx) rest with
    | .error e => .error e
    | .ok (ctx2, rest2) => .ok (ctx2, rest2.drop 1)
  else if c = quote_character then
    match lex_character_literal (try_append_multibyte_lexeme conv ctx) rest with
    | .error e => .error e
    | .ok (ctx2, rest2) => .ok (ctx2, rest2.drop 1)
  else if c = ' ' ∨ c = '\t' then
    let ctx := try_append_multibyte_lexeme conv ctx
    .ok ({ ctx with column := ctx.column + 1 }, rest)
  else
    if MAX_TOKEN_SIZE ≤ ctx.token_buffer.length then
      .error (.TokenTooLarge ctx.line ctx.column ctx.token_buffer)
    else
      let mline :=
        match ctx.multibyte_line with
        | none => some ctx.line
        | some l => some l
      let mcolumn :=
        match ctx.multibyte_column with
        | none => some ctx.column
        | some k => some k
      .ok ({ ctx with
             multibyte_line := mline
             multibyte_column := mcolumn
             token_buffer := ctx.token_buffer ++ [c]
             column := ctx.column + 1 }, rest)

/-- The scan loop of `lex_program` (tlpin.c): dispatch on each character until
the input is exhausted.  The C loop terminates because `program_index`
strictly increases each iteration; this is encoded by a `fuel` bound on the
number of iterations, which `lex_program` instantiates with the input length
(sufficient since every iteration consumes at least one character; see
`lex_program_loop_fuel_irrelevant`).  The `fuel = 0` branch with input
remaining is unreachable under that instantiation. -/
def lex_program_loop (conv : List Char → SstringConvertResult) (fuel : Nat)
    (ctx : LexerContext) (rest : List Char) : Except LexFatal LexerContext :=
  match rest with
  | [] => .ok ctx
  | c :: rest1 =>
    match fuel with
    | 0 => .ok ctx
    | fuel + 1 =>
      match lex_dispatch conv ctx c rest1 with
      | .error e => .error e
      | .ok (ctx2, rest2) => lex_program_loop conv fuel ctx2 rest2

/-- The initial `LexerContext` built at the top of `lex_program` (tlpin.c):
line 1, column 0, empty buffer, both start-position sentinels unset.  (The
`sstring_resize` preallocation only changes capacity, so the buffer count
starts at 0.) -/
def initial_context : LexerContext :=
  { token_buffer := [], lexemes := [], line := 1, column := 0,
    multibyte_line := none, multibyte_column := none, failed := false,
    diagnostics := [] }

/-- `lex_program` (tlpin.c) up to but excluding the final
`if (context.failed) exit(1)`: initial context, scan loop, then one final
flush of any pending accumulation. -/
def lex_program_run (conv : List Char → SstringConvertResult)
    (program : List Char) : Except LexFatal LexerContext :=
  match lex_program_loop conv program.length initial_context program with
  | .error e => .error e
  | .ok ctx => .ok (try_append_multibyte_lexeme conv ctx)

/-- `lex_program` (tlpin.c): after the final flush, `exit(1)` if any step of
the pass recorded a failure (modelled by the `Failed` error carrying the
diagnostics printed during the pass); otherwise return the lexeme array. -/
def lex_program (conv : List Char → SstringConvertResult)
    (program : List Char) : Except LexFatal (List Lexeme) :=
  match lex_program_run conv program with
  | .error e => .error e
  | .ok ctx =>
    if ctx.failed then .error (.Failed ctx.diagnostics) else .ok ctx.lexemes

/-- Numeric value of a decimal digit character. -/
def digit_value (c : Char) : Nat := c.toNat - 48

/-- Value of a string of decimal digits. -/
def digits_to_nat (l : List Char) : Nat :=
  l.foldl (fun a c => 10 * a + digit_value c) 0

/-- Modelled from the spec: `sstring_to_double` (sized-string.h) wraps the C
library's `strtod`, whose implementation is outside this repository.
Following the spec's "strict numeric parse consuming the *entire* accumulated
text (no trailing garbage permitted)", this model accepts decimal floating
literals `[+|-] digits [. digits] [(e|E) [+|-] digits]` with at least one
mantissa digit, computes the exact rational value, and classifies it against
the IEEE double range the way `sstring_to_double` reads `strtod`'s `ERANGE`:
overflow when the magnitude exceeds the largest finite double, underflow when
a nonzero value lies below the smallest positive normal double.  Hexadecimal
floats and `inf`/`nan` forms are not modelled; any text the grammar does not
consume entirely is `PARSE_FAIL`, exactly as a partial `strtod` consumption
is. -/
def strtod_model (text : List Char) : SstringConvertResult :=
  let signRest : Bool × List Char :=
    match text with
    | '-' :: r => (true, r)
    | '+' :: r => (false, r)
    | r => (false, r)
  let neg := signRest.1
  let rest := signRest.2
  let intPart := rest.takeWhile Char.isDigit
  let rest1 := rest.dropWhile Char.isDigit
  let fracRest : List Char × List Char :=
    match rest1 with
    | '.' :: r => (r.takeWhile Char.isDigit, r.dropWhile Char.isDigit)
    | r => ([], r)
  let fracPart := fracRest.1
  let rest2 := fracRest.2
  let expInfo : Option (Bool × Nat) :=
    match rest2 with
    | [] => some (false, 0)
    | e :: r =>
      if e = 'e' ∨ e = 'E' then
        let expSignRest : Bool × List Char :=
          match r with
          | '-' :: r2 => (true, r2)
          | '+' :: r2 => (false, r2)
          | r2 => (false, r2)
        let expDigits := expSignRest.2.takeWhile Char.isDigit
        if expDigits = [] ∨ expSignRest.2.dropWhile Char.isDigit ≠ [] then none
        else some (expSignRest.1, digits_to_nat expDigits)
      else none
  if intPart = [] ∧ fracPart = [] then .SSTRING_CONVERT_PARSE_FAIL
  else
    match expInfo with
    | none => .SSTRING_CONVERT_PARSE_FAIL
    | some (expNeg, expVal) =>
      -- exact value: `(-1)^neg * m * 10^e` with integer mantissa `m` and
      -- signed decimal exponent `e`
      let m : Nat := digits_to_nat (intPart ++ fracPart)
      let e : Int :=
        (if expNeg then -(expVal : Int) else (expVal : Int)) -
          (fracPart.length : Int)
      let value : ℚ := (if neg then -(m : ℚ) else (m : ℚ)) * (10 : ℚ) ^ e
      -- range classification by integer comparison against
      -- `DBL_MAX = (2^53 - 1) * 2^971` and `DBL_MIN = 2^(-1022)`
      if 0 ≤ e then
        if (2 ^ 53 - 1) * 2 ^ 971 < m * 10 ^ e.toNat then
          .SSTRING_CONVERT_OVERFLOW
        else .SSTRING_CONVERT_SUCCESS value
      else
        if (2 ^ 53 - 1) * 2 ^ 971 * 10 ^ (-e).toNat < m then
          .SSTRING_CONVERT_OVERFLOW
        else if m ≠ 0 ∧ m * 2 ^ 1022 < 10 ^ (-e).toNat then
          .SSTRING_CONVERT_UNDERFLOW
        else .SSTRING_CONVERT_SUCCESS value

/-- The closed set of token kinds in the spec's data-model table: String,
Integer (absent from this draft's `TokenType`), Float, Atom, Newline,
Parenthesis. -/
def spec_token_kinds : List TokenType :=
  [.TOKEN_STRING, .TOKEN_FLOAT, .TOKEN_ATOM, .TOKEN_NEWLINE,
   .TOKEN_PARENTHESIS]

/-- The lexer-state invariant of the spec: the pending-token buffer is
non-empty exactly when the pending token's start position is set (the
`SIZE_MAX` sentinel, here `none`, means unset). -/
def buffer_position_invariant (ctx : LexerContext) : Prop :=
  (ctx.token_buffer = [] ↔ ctx.multibyte_line = none) ∧
  (ctx.token_buffer = [] ↔ ctx.multibyte_column = none)

instance (ctx : LexerContext) : Decidable (buffer_position_invariant ctx) := by
  unfold buffer_position_invariant
  infer_instance


/-- `lex_string_loop` consumes input: on success the returned remainder is no
longer than the input. -/
theorem lex_string_loop_length (ctx : LexerContext) (s rest : List Char) :
    ∀ ctx2 rest2, lex_string_loop ctx s rest = .ok (ctx2, rest2) →
      rest2.length ≤ rest.length := by
  induction ctx, s, rest using lex_string_loop.induct with
  | case1 ctx s =>
    intro ctx2 rest2 h
    rw [lex_string_loop.eq_def] at h
    simp at h
  | case2 ctx s rest =>
    intro ctx2 rest2 h
    rw [lex_string_loop.eq_def] at h
    simp at h
    obtain ⟨-, h2⟩ := h
    simp [← h2]
  | case3 ctx s rest hq ih =>
    intro ctx2 rest2 h
    rw [lex_string_loop.eq_def] at h
    simp at h
    have := ih _ _ h
    simp
    omega
  | case4 ctx s h1 h2 =>
    intro ctx2 rest2 h
    rw [lex_string_loop.eq_def] at h
    simp at h
  | case5 ctx s d rest hor h1 h2 ih =>
    intro ctx2 rest2 h
    rw [lex_string_loop.eq_def] at h
    simp [if_pos hor] at h
    have := ih _ _ h
    simp
    omega
  | case6 ctx s rest h1 h2 h3 ih =>
    intro ctx2 rest2 h
    rw [lex_string_loop.eq_def] at h
    simp at h
    have := ih _ _ h
    simp
    omega
  | case7 ctx s rest h1 h2 h3 h4 ih =>
    intro ctx2 rest2 h
    rw [lex_string_loop.eq_def] at h
    simp at h
    have := ih _ _ h
    simp
    omega
  | case8 ctx s d rest h1 h2 h3 h4 h5 ih =>
    intro ctx2 rest2 h
    rw [lex_string_loop.eq_def] at h
    simp [h1, h2, h3] at h
    have := ih _ _ h
    simp
    omega
  | case9 ctx s c rest h1 h2 h3 ih =>
    intro ctx2 rest2 h
    rw [lex_string_loop.eq_def] at h
    simp [h1, h2, h3] at h
    have := ih _ _ h
    simp
    omega

/-- The only fatal error `lex_string_loop` raises is the unterminated-string
error, and it always reports the position stored in the `multibyte` fields
(unchanged throughout the scan). -/
theorem lex_string_loop_error (ctx : LexerContext) (s rest : List Char) :
    ∀ e, lex_string_loop ctx s rest = .error e →
      e = .UnterminatedString (ctx.multibyte_line.getD 0)
        (ctx.multibyte_column.getD 0) := by
  induction ctx, s, rest using lex_string_loop.induct with
  | case1 ctx s =>
    intro e h
    rw [lex_string_loop.eq_def] at h
    simp at h
    simp [h]
  | case2 ctx s rest =>
    intro e h
    rw [lex_string_loop.eq_def] at h
    simp at h
  | case3 ctx s rest hq ih =>
    intro e h
    rw [lex_string_loop.eq_def] at h
    simp at h
    simpa using ih _ h
  | case4 ctx s h1 h2 =>
    intro e h
    rw [lex_string_loop.eq_def] at h
    simp at h
    simp [h]
  | case5 ctx s d rest hor h1 h2 ih =>
    intro e h
    rw [lex_string_loop.eq_def] at h
    simp [if_pos hor] at h
    simpa using ih _ h
  | case6 ctx s rest h1 h2 h3 ih =>
    intro e h
    rw [lex_string_loop.eq_def] at h
    simp at h
    simpa using ih _ h
  | case7 ctx s rest h1 h2 h3 h4 ih =>
    intro e h
    rw [lex_string_loop.eq_def] at h
    simp at h
    simpa using ih _ h
  | case8 ctx s d rest h1 h2 h3 h4 h5 ih =>
    intro e h
    rw [lex_string_loop.eq_def] at h
    simp [h1, h2, h3] at h
    simpa using ih _ h
  | case9 ctx s c rest h1 h2 h3 ih =>
    intro e h
    rw [lex_string_loop.eq_def] at h
    simp [h1, h2, h3] at h
    simpa using ih _ h

/-- On success `lex_string_loop` leaves the start-position sentinels unset and
the pending-token buffer untouched. -/
theorem lex_string_loop_ok_state (ctx : LexerContext) (s rest : List Char) :
    ∀ ctx2 rest2, lex_string_loop ctx s rest = .ok (ctx2, rest2) →
      ctx2.multibyte_line = none ∧ ctx2.multibyte_column = none ∧
      ctx2.token_buffer = ctx.token_buffer := by
  induction ctx, s, rest using lex_string_loop.induct with
  | case1 ctx s =>
    intro ctx2 rest2 h
    rw [lex_string_loop.eq_def] at h
    simp at h
  | case2 ctx s rest =>
    intro ctx2 rest2 h
    rw [lex_string_loop.eq_def] at h
    simp at h
    obtain ⟨h1, -⟩ := h
    simp [← h1]
  | case3 ctx s rest hq ih =>
    intro ctx2 rest2 h
    rw [lex_string_loop.eq_def] at h
    simp at h
    simpa using ih _ _ h
  | case4 ctx s h1 h2 =>
    intro ctx2 rest2 h
    rw [lex_string_loop.eq_def] at h
    simp at h
  | case5 ctx s d rest hor h1 h2 ih =>
    intro ctx2 rest2 h
    rw [lex_string_loop.eq_def] at h
    simp [if_pos hor] at h
    simpa using ih _ _ h
  | case6 ctx s rest h1 h2 h3 ih =>
    intro ctx2 rest2 h
    rw [lex_string_loop.eq_def] at h
    simp at h
    simpa using ih _ _ h
  | case7 ctx s rest h1 h2 h3 h4 ih =>
    intro ctx2 rest2 h
    rw [lex_string_loop.eq_def] at h
    simp at h
    simpa using ih _ _ h
  | case8 ctx s d rest h1 h2 h3 h4 h5 ih =>
    intro ctx2 rest2 h
    rw [lex_string_loop.eq_def] at h
    simp [h1, h2, h3] at h
    simpa using ih _ _ h
  | case9 ctx s c rest h1 h2 h3 ih =>
    intro ctx2 rest2 h
    rw [lex_string_loop.eq_def] at h
    simp [h1, h2, h3] at h
    simpa using ih _ _ h

/-- A fatal error raised by `lex_string` is the unterminated-string error
reported at the position `lex_string` was entered with: that of the opening
quote. -/
theorem lex_string_error (ctx : LexerContext) (rest : List Char) :
    ∀ e, lex_string ctx rest = .error e →
      e = .UnterminatedString ctx.line ctx.column := by
  intro e h
  have := lex_string_loop_error _ _ _ _ h
  simpa using this

/-- On success `lex_string` resets the sentinels, leaves the buffer untouched
and consumes input. -/
theorem lex_string_ok_state (ctx : LexerContext) (rest : List Char) :
    ∀ ctx2 rest2, lex_string ctx rest = .ok (ctx2, rest2) →
      ctx2.multibyte_line = none ∧ ctx2.multibyte_column = none ∧
      ctx2.token_buffer = ctx.token_buffer ∧ rest2.length ≤ rest.length := by
  intro ctx2 rest2 h
  have h1 := lex_string_loop_ok_state _ _ _ _ _ h
  have h2 := lex_string_loop_length _ _ _ _ _ h
  exact ⟨h1.1, h1.2.1, h1.2.2, h2⟩

theorem lex_character_literal_ok_state (ctx : LexerContext) (rest : List Char) :
    ∀ ctx2 rest2, lex_character_literal ctx rest = .ok (ctx2, rest2) →
      ctx2.multibyte_line = none ∧ ctx2.multibyte_column = none ∧
      ctx2.token_buffer = ctx.token_buffer ∧ rest2.length ≤ rest.length := by
  intro ctx2 rest2 h
  rcases rest with - | ⟨c, rest1⟩
  · simp [lex_character_literal] at h
  · rw [lex_character_literal.eq_def] at h
    simp only [] at h
    by_cases hc : c = '\\'
    · rw [if_pos hc] at h
      rcases rest1 with - | ⟨d, rest2x⟩
      · simp at h
      · simp only [] at h
        have hne1 : ¬(('\\' : Char) = quote_character) := by decide
        have hne2 : ¬(('n' : Char) = quote_character) := by decide
        have hne3 : ¬(('t' : Char) = quote_character) := by decide
        by_cases hd1 : d = quote_character
        · simp [hd1] at h
          rcases rest2x with - | ⟨q, rest3⟩
          · simp at h
          · by_cases hq : q = quote_character
            · simp [hq] at h
              obtain ⟨h1, h2⟩ := h
              simp [← h1, ← h2]
              omega
            · simp [hq] at h
        · by_cases hd2 : d = '\\'
          · simp [hd1, hd2, hne1] at h
            rcases rest2x with - | ⟨q, rest3⟩
            · simp at h
            · by_cases hq : q = quote_character
              · simp [hq] at h
                obtain ⟨h1, h2⟩ := h
                simp [← h1, ← h2]
                omega
              · simp [hq] at h
          · by_cases hd3 : d = 'n'
            · simp [hd1, hd2, hd3, hne2] at h
              rcases rest2x with - | ⟨q, rest3⟩
              · simp at h
              · by_cases hq : q = quote_character
                · simp [hq] at h
                  obtain ⟨h1, h2⟩ := h
                  simp [← h1, ← h2]
                  omega
                · simp [hq] at h
            · by_cases hd4 : d = 't'
              · simp [hd1, hd2, hd3, hd4, hne3] at h
                rcases rest2x with - | ⟨q, rest3⟩
                · simp at h
                · by_cases hq : q = quote_character
                  · simp [hq] at h
                    obtain ⟨h1, h2⟩ := h
                    simp [← h1, ← h2]
                    omega
                  · simp [hq] at h
              · simp [hd1, hd2, hd3, hd4] at h
                rcases rest2x with - | ⟨q, rest3⟩
                · simp at h
                · by_cases hq : q = quote_character
                  · simp [hq] at h
                    obtain ⟨h1, h2⟩ := h
                    simp [← h1, ← h2]
                    omega
                  · simp [hq] at h
    · rw [if_neg hc] at h
      rcases rest1 with - | ⟨q, rest3⟩
      · simp at h
      · by_cases hq : q = quote_character
        · simp [hq] at h
          obtain ⟨h1, h2⟩ := h
          simp [← h1, ← h2]
          omega
        · simp [hq] at h

/-- Flushing an empty pending accumulation leaves the context untouched. -/
theorem try_append_empty (conv : List Char → SstringConvertResult)
    (ctx : LexerContext) (h : ctx.token_buffer = []) :
    try_append_multibyte_lexeme conv ctx = ctx := by
  simp [try_append_multibyte_lexeme, h]

/-- Flushing a non-empty pending accumulation always clears the buffer and
resets the sentinels, and never moves the cursor position. -/
theorem try_append_nonempty_state (conv : List Char → SstringConvertResult)
    (ctx : LexerContext) (h : ctx.token_buffer ≠ []) :
    (try_append_multibyte_lexeme conv ctx).token_buffer = [] ∧
    (try_append_multibyte_lexeme conv ctx).multibyte_line = none ∧
    (try_append_multibyte_lexeme conv ctx).multibyte_column = none ∧
    (try_append_multibyte_lexeme conv ctx).line = ctx.line ∧
    (try_append_multibyte_lexeme conv ctx).column = ctx.column := by
  unfold try_append_multibyte_lexeme
  rw [if_neg (by simpa using h)]
  cases conv ctx.token_buffer <;> simp

theorem lex_dispatch_length (conv : List Char → SstringConvertResult)
    (ctx : LexerContext) (c : Char) (rest : List Char) :
    ∀ ctx2 rest2, lex_dispatch conv ctx c rest = .ok (ctx2, rest2) →
      rest2.length ≤ rest.length := by
  intro ctx2 rest2 h
  unfold lex_dispatch at h
  by_cases h1 : c = '\n'
  · rw [if_pos h1] at h
    simp at h
    simp [← h.2]
  rw [if_neg h1] at h
  by_cases h2 : c = '(' ∨ c = ')'
  · rw [if_pos h2] at h
    simp at h
    simp [← h.2]
  rw [if_neg h2] at h
  by_cases h3 : c = '\x7b' ∨ c = '\x7d'
  · rw [if_pos h3] at h
    simp at h
    simp [← h.2]
  rw [if_neg h3] at h
  by_cases h4 : c = '"'
  · rw [if_pos h4] at h
    cases hs : lex_string (try_append_multibyte_lexeme conv ctx) rest with
    | error e =>
      rw [hs] at h
      simp at h
    | ok p =>
      obtain ⟨ctx3, rest3⟩ := p
      rw [hs] at h
      simp at h
      have h5 := (lex_string_ok_state _ _ _ _ hs).2.2.2
      have h6 : rest2 = rest3.drop 1 := by simp [← h.2]
      have : rest2.length ≤ rest3.length := by simp [h6]
      omega
  rw [if_neg h4] at h
  by_cases h5 : c = quote_character
  · rw [if_pos h5] at h
    cases hs : lex_character_literal (try_append_multibyte_lexeme conv ctx) rest with
    | error e =>
      rw [hs] at h
      simp at h
    | ok p =>
      obtain ⟨ctx3, rest3⟩ := p
      rw [hs] at h
      simp at h
      have h6 := (lex_character_literal_ok_state _ _ _ _ hs).2.2.2
      have h7 : rest2 = rest3.drop 1 := by simp [← h.2]
      have : rest2.length ≤ rest3.length := by simp [h7]
      omega
  rw [if_neg h5] at h
  by_cases h6 : c = ' ' ∨ c = '\t'
  · rw [if_pos h6] at h
    simp at h
    simp [← h.2]
  rw [if_neg h6] at h
  by_cases h7 : MAX_TOKEN_SIZE ≤ ctx.token_buffer.length
  · rw [if_pos h7] at h
    simp at h
  · rw [if_neg h7] at h
    simp at h
    simp [← h.2]

theorem lex_program_loop_fuel_irrelevant
    (conv : List Char → SstringConvertResult) :
    ∀ (fuel1 fuel2 : Nat) (ctx : LexerContext) (rest : List Char),
      rest.length ≤ fuel1 → rest.length ≤ fuel2 →
      lex_program_loop conv fuel1 ctx rest =
        lex_program_loop conv fuel2 ctx rest := by
  intro fuel1
  induction fuel1 with
  | zero =>
    intro fuel2 ctx rest hl1 hl2
    have hrest : rest = [] := by cases rest <;> simp_all
    subst hrest
    cases fuel2 <;> simp [lex_program_loop]
  | succ f ih =>
    intro fuel2 ctx rest hl1 hl2
    cases rest with
    | nil => cases fuel2 <;> simp [lex_program_loop]
    | cons c rest1 =>
      cases fuel2 with
      | zero => simp at hl2
      | succ f2 =>
        rw [lex_program_loop.eq_def]
        conv_rhs => rw [lex_program_loop.eq_def]
        simp only []
        cases hd : lex_dispatch conv ctx c rest1 with
        | error e => simp
        | ok p =>
          obtain ⟨ctx3, rest3⟩ := p
          have hlen := lex_dispatch_length _ _ _ _ _ _ hd
          simp only [List.length_cons] at hl1 hl2
          exact ih f2 ctx3 rest3 (by omega) (by omega)

/-- C1: Executing the program
`[Literal(Number 30), Literal(Number 10), Native(add), Literal(Number 20),
Native(subtract)]` with `execute_functions` from an empty value stack
terminates with the stack equal to the single-element sequence
`[Number 20.0]`. -/
theorem C1_execute_initial_program :
    execute_functions initial_program [] = .ok [Value.Number 20] := by
  simp [execute_functions, initial_program, run_native, native_pona, native_ike]
  norm_num

/-- C7: Invoking either native binary operation (add or subtract) on a stack
with fewer than 2 elements, or whose top two elements are not both of `Number`
kind, yields a stack-underflow or type-mismatch error, and in the error case
the stack is left exactly as it was before the invocation. -/
theorem C7_native_error_preserves_stack (stack : List Value)
    (h : stack.length < 2 ∨ top_two_numbers stack = false) :
    (∃ e, native_pona stack = .err e stack) ∧
    (∃ e, native_ike stack = .err e stack) := by
  match stack with
  | [] => exact ⟨⟨.StackUnderflow, rfl⟩, ⟨.StackUnderflow, rfl⟩⟩
  | [a] => exact ⟨⟨.StackUnderflow, rfl⟩, ⟨.StackUnderflow, rfl⟩⟩
  | b :: a :: rest =>
    have hb : top_two_numbers (b :: a :: rest) = false := by
      rcases h with h | h
      · exfalso
        simp only [List.length_cons] at h
        omega
      · exact h
    match a, b with
    | .Number x, .Number y => simp [top_two_numbers] at hb
    | .Number x, .Character c =>
      exact ⟨⟨.TypeMismatch, rfl⟩, ⟨.TypeMismatch, rfl⟩⟩
    | .Number x, .Array vs =>
      exact ⟨⟨.TypeMismatch, rfl⟩, ⟨.TypeMismatch, rfl⟩⟩
    | .Character c, _ =>
      exact ⟨⟨.TypeMismatch, rfl⟩, ⟨.TypeMismatch, rfl⟩⟩
    | .Array vs, _ =>
      exact ⟨⟨.TypeMismatch, rfl⟩, ⟨.TypeMismatch, rfl⟩⟩

/-- Witness for C7: on the one-element stack `[Character 65]` both natives
report an error and leave the stack untouched. -/
theorem C7_native_error_preserves_stack_witness :
    (∃ e, native_pona [Value.Character 65] = .err e [Value.Character 65]) ∧
    (∃ e, native_ike [Value.Character 65] = .err e [Value.Character 65]) :=
  C7_native_error_preserves_stack [Value.Character 65] (Or.inl (by decide))

/-- C8: Executing a `Defined` node with children `fs` against stack `s`
produces the same result as executing the sequence `fs` directly against `s`
(subroutines share the caller's stack), and execution of a program is the
left-to-right composition of executing its nodes. -/
theorem C8_defined_shares_stack_and_execution_composes :
    (∀ fs s, execute_functions [Function.Defined fs] s = execute_functions fs s) ∧
    (∀ p q s, execute_functions (p ++ q) s =
      exec_then (execute_functions p s) (fun s2 => execute_functions q s2)) := by
  constructor
  · intro fs s
    simp only [execute_functions]
    cases execute_functions fs s with
    | ok s2 => simp [execute_functions]
    | err e s2 => simp
  · intro p q s
    induction p generalizing s with
    | nil => simp [execute_functions, exec_then]
    | cons f p ih =>
      cases f with
      | Defined gs =>
        simp only [List.cons_append, execute_functions]
        cases execute_functions gs s with
        | ok s2 => simpa [exec_then] using ih s2
        | err e s2 => simp [exec_then]
      | Native n =>
        simp only [List.cons_append, execute_functions]
        cases run_native n s with
        | ok s2 => simpa [exec_then] using ih s2
        | err e s2 => simp [exec_then]
      | Literal v =>
        simp only [List.cons_append, execute_functions]
        exact ih (v :: s)

/-- Under the buffer/position invariant, flushing always results in an empty
buffer with unset sentinels. -/
theorem try_append_reset (conv : List Char → SstringConvertResult)
    (ctx : LexerContext) (hinv : buffer_position_invariant ctx) :
    (try_append_multibyte_lexeme conv ctx).token_buffer = [] ∧
    (try_append_multibyte_lexeme conv ctx).multibyte_line = none ∧
    (try_append_multibyte_lexeme conv ctx).multibyte_column = none := by
  by_cases h : ctx.token_buffer = []
  · rw [try_append_empty conv ctx h]
    exact ⟨h, hinv.1.mp h, hinv.2.mp h⟩
  · have h2 := try_append_nonempty_state conv ctx h
    exact ⟨h2.1, h2.2.1, h2.2.2.1⟩

/-- The default branch of the dispatch switch: an ordinary character is
appended to the pending accumulation, the start position is recorded if it
was unset and kept otherwise, and the column advances by one. -/
theorem lex_dispatch_default (conv : List Char → SstringConvertResult)
    (ctx : LexerContext) (c : Char) (rest : List Char)
    (hc : c ∉ ['"', '(', ')', ' ', '\t', '\n', quote_character, '\x7b', '\x7d'])
    (hsize : ctx.token_buffer.length < MAX_TOKEN_SIZE) :
    lex_dispatch conv ctx c rest =
      .ok ({ ctx with
             multibyte_line := some (ctx.multibyte_line.getD ctx.line)
             multibyte_column := some (ctx.multibyte_column.getD ctx.column)
             token_buffer := ctx.token_buffer ++ [c]
             column := ctx.column + 1 }, rest) := by
  simp only [List.mem_cons, List.mem_singleton, not_or] at hc
  obtain ⟨hq, hp1, hp2, hsp, htab, hnl, hsq, hb1, hb2⟩ := hc
  unfold lex_dispatch
  rw [if_neg hnl, if_neg (by simp [hp1, hp2]), if_neg (by simp [hb1, hb2]),
    if_neg hq, if_neg hsq, if_neg (by simp [hsp, htab]),
    if_neg (not_le.mpr hsize)]
  cases hml : ctx.multibyte_line <;> cases hmc : ctx.multibyte_column <;> simp


/-- Scanning a run of ordinary characters only accumulates them into the
pending buffer: no token is emitted, the line never changes, the column
advances by one per character, and the start position is captured at the
first character. -/
theorem lex_loop_accumulates (conv : List Char → SstringConvertResult) :
    ∀ (text : List Char) (ctx : LexerContext) (fuel : Nat),
      (∀ c ∈ text,
        c ∉ ['"', '(', ')', ' ', '\t', '\n', quote_character, '\x7b', '\x7d']) →
      ctx.token_buffer.length + text.length ≤ MAX_TOKEN_SIZE →
      text.length ≤ fuel →
      lex_program_loop conv fuel ctx text =
        .ok { ctx with
              token_buffer := ctx.token_buffer ++ text
              column := ctx.column + text.length
              multibyte_line :=
                if text.isEmpty then ctx.multibyte_line
                else some (ctx.multibyte_line.getD ctx.line)
              multibyte_column :=
                if text.isEmpty then ctx.multibyte_column
                else some (ctx.multibyte_column.getD ctx.column) } := by
  intro text
  induction text with
  | nil =>
    intro ctx fuel hc hs hf
    simp [lex_program_loop]
  | cons c text ih =>
    intro ctx fuel hc hs hf
    match fuel with
    | 0 => simp at hf
    | f + 1 =>
      rw [lex_program_loop.eq_def]
      simp only []
      rw [lex_dispatch_default conv ctx c text (hc c (by simp))
        (by simp at hs; omega)]
      simp only []
      rw [ih _ f (fun x hx => hc x (by simp [hx]))
        (by simp at hs ⊢; omega) (by simp at hf; omega)]
      rcases text with - | ⟨d, text⟩
      · simp
      · simp
        omega


/-- C5: For every input whose last string literal is opened by a double-quote
but reaches end-of-input before an unescaped closing double-quote,
tokenization aborts with an unterminated-string error whose reported line and
column are those of the opening quote (the position `lex_string` was entered
at), not the position at end-of-input; on the concrete input `\"abc` the
error is reported at line 1, column 0. -/
theorem C5_unterminated_string_position :
    (∀ (ctx : LexerContext) (rest : List Char) (l c : Nat),
      lex_string ctx rest = .error (.UnterminatedString l c) →
        l = ctx.line ∧ c = ctx.column) ∧
    (∀ conv, lex_program conv ['"', 'a', 'b', 'c'] =
      .error (.UnterminatedString 1 0)) := by
  constructor
  · intro ctx rest l c h
    have h2 := lex_string_error _ _ _ h
    simp at h2
    exact h2
  · intro conv
    rfl

/-- Witness for C5: `lex_string` from the initial context on input `a` (no
closing quote) fails, and the reported position is the entry position
(line 1, column 0). -/
theorem C5_unterminated_string_position_witness :
    1 = initial_context.line ∧ 0 = initial_context.column :=
  C5_unterminated_string_position.1 initial_context ['a'] 1 0 rfl

/-- C10: A one-character input `{` or `}` lexes successfully into exactly one
token of kind `TOKEN_BRACKET` (a kind outside the spec's closed set of token
kinds) carrying that character, at line 1, column 0; and braces act as token
boundaries, never becoming part of an Atom. -/
theorem C10_braces_are_bracket_tokens :
    (∀ conv, lex_program conv ['\x7b'] =
        .ok [Lexeme.mk .TOKEN_BRACKET (.as_bracket '\x7b') 1 0]) ∧
    (∀ conv, lex_program conv ['\x7d'] =
        .ok [Lexeme.mk .TOKEN_BRACKET (.as_bracket '\x7d') 1 0]) ∧
    TokenType.TOKEN_BRACKET ∉ spec_token_kinds ∧
    lex_program strtod_model ['a', '\x7b', 'b'] =
      .ok [Lexeme.mk .TOKEN_ATOM (.as_atom ['a']) 1 0,
           Lexeme.mk .TOKEN_BRACKET (.as_bracket '\x7b') 1 1,
           Lexeme.mk .TOKEN_ATOM (.as_atom ['b']) 1 2] :=
  ⟨fun _ => rfl, fun _ => rfl, by decide, rfl⟩

/-- C6: For a multi-character token assembled incrementally, the recorded
position is captured eagerly the moment the first character is consumed (when
the sentinels are unset they are set to the current position; afterwards they
are kept), and tokenizing the input of two spaces followed by `foo` yields an
Atom token at line 1, column 2. -/
theorem C6_token_position_first_character :
    (∀ (conv : List Char → SstringConvertResult) (ctx : LexerContext)
      (c : Char) (rest : List Char),
      c ∉ ['"', '(', ')', ' ', '\t', '\n', quote_character, '\x7b', '\x7d'] →
      ctx.multibyte_line = none → ctx.multibyte_column = none →
      ctx.token_buffer.length < MAX_TOKEN_SIZE →
      lex_dispatch conv ctx c rest =
        .ok ({ ctx with
               multibyte_line := some ctx.line
               multibyte_column := some ctx.column
               token_buffer := ctx.token_buffer ++ [c]
               column := ctx.column + 1 }, rest)) ∧
    (∀ (conv : List Char → SstringConvertResult) (ctx : LexerContext)
      (c : Char) (rest : List Char) (l k : Nat),
      c ∉ ['"', '(', ')', ' ', '\t', '\n', quote_character, '\x7b', '\x7d'] →
      ctx.multibyte_line = some l → ctx.multibyte_column = some k →
      ctx.token_buffer.length < MAX_TOKEN_SIZE →
      lex_dispatch conv ctx c rest =
        .ok ({ ctx with
               token_buffer := ctx.token_buffer ++ [c]
               column := ctx.column + 1 }, rest)) ∧
    lex_program strtod_model [' ', ' ', 'f', 'o', 'o'] =
      .ok [Lexeme.mk .TOKEN_ATOM (.as_atom ['f', 'o', 'o']) 1 2] := by
  refine ⟨?_, ?_, rfl⟩
  · intro conv ctx c rest hc hml hmc hsize
    rw [lex_dispatch_default conv ctx c rest hc hsize]
    simp [hml, hmc]
  · intro conv ctx c rest l k hc hml hmc hsize
    rw [lex_dispatch_default conv ctx c rest hc hsize]
    simp [hml, hmc]

/-- Witness for C6: dispatching the first character `f` from the initial
context records start position line 1, column 0. -/
theorem C6_token_position_first_character_witness :
    lex_dispatch strtod_model initial_context 'f' [] =
      .ok ({ initial_context with
             multibyte_line := some 1
             multibyte_column := some 0
             token_buffer := ['f']
             column := 1 }, []) :=
  C6_token_position_first_character.1 strtod_model initial_context 'f' []
    (by decide) rfl rfl (by decide)


/-- C9: The buffer/start-position invariant (`token_buffer` non-empty iff the
start-position sentinels are set) holds initially and is preserved by every
iteration of the main character-dispatch loop, and flushing an empty pending
accumulation is a no-op. -/
theorem C9_buffer_position_invariant_holds :
    buffer_position_invariant initial_context ∧
    (∀ (conv : List Char → SstringConvertResult) (ctx : LexerContext)
      (c : Char) (rest : List Char) (ctx2 : LexerContext) (rest2 : List Char),
      buffer_position_invariant ctx →
      lex_dispatch conv ctx c rest = .ok (ctx2, rest2) →
      buffer_position_invariant ctx2) ∧
    (∀ (conv : List Char → SstringConvertResult) (ctx : LexerContext),
      ctx.token_buffer = [] → try_append_multibyte_lexeme conv ctx = ctx) := by
  refine ⟨by decide, ?_, fun conv ctx h => try_append_empty conv ctx h⟩
  intro conv ctx c rest ctx2 rest2 hinv hd
  have hreset := try_append_reset conv ctx hinv
  unfold lex_dispatch at hd
  by_cases h1 : c = '\n'
  · rw [if_pos h1] at hd
    simp at hd
    obtain ⟨hctx, -⟩ := hd
    constructor <;> simp [← hctx, hreset.1, hreset.2.1, hreset.2.2]
  rw [if_neg h1] at hd
  by_cases h2 : c = '(' ∨ c = ')'
  · rw [if_pos h2] at hd
    simp at hd
    obtain ⟨hctx, -⟩ := hd
    constructor <;> simp [← hctx, hreset.1, hreset.2.1, hreset.2.2]
  rw [if_neg h2] at hd
  by_cases h3 : c = '\x7b' ∨ c = '\x7d'
  · rw [if_pos h3] at hd
    simp at hd
    obtain ⟨hctx, -⟩ := hd
    constructor <;> simp [← hctx, hreset.1, hreset.2.1, hreset.2.2]
  rw [if_neg h3] at hd
  by_cases h4 : c = '"'
  · rw [if_pos h4] at hd
    cases hs : lex_string (try_append_multibyte_lexeme conv ctx) rest with
    | error e =>
      rw [hs] at hd
      simp at hd
    | ok p =>
      obtain ⟨ctx3, rest3⟩ := p
      rw [hs] at hd
      simp at hd
      obtain ⟨hctx, -⟩ := hd
      have hst := lex_string_ok_state _ _ _ _ hs
      constructor <;>
        simp [← hctx, hst.1, hst.2.1, hst.2.2.1, hreset.1]
  rw [if_neg h4] at hd
  by_cases h5 : c = quote_character
  · rw [if_pos h5] at hd
    cases hs : lex_character_literal (try_append_multibyte_lexeme conv ctx) rest with
    | error e =>
      rw [hs] at hd
      simp at hd
    | ok p =>
      obtain ⟨ctx3, rest3⟩ := p
      rw [hs] at hd
      simp at hd
      obtain ⟨hctx, -⟩ := hd
      have hst := lex_character_literal_ok_state _ _ _ _ hs
      constructor <;>
        simp [← hctx, hst.1, hst.2.1, hst.2.2.1, hreset.1]
  rw [if_neg h5] at hd
  by_cases h6 : c = ' ' ∨ c = '\t'
  · rw [if_pos h6] at hd
    simp at hd
    obtain ⟨hctx, -⟩ := hd
    constructor <;> simp [← hctx, hreset.1, hreset.2.1, hreset.2.2]
  rw [if_neg h6] at hd
  by_cases h7 : MAX_TOKEN_SIZE ≤ ctx.token_buffer.length
  · rw [if_pos h7] at hd
    simp at hd
  · rw [if_neg h7] at hd
    simp at hd
    obtain ⟨hctx, -⟩ := hd
    constructor <;>
      cases hml : ctx.multibyte_line <;> cases hmc : ctx.multibyte_column <;>
        simp [← hctx, hml, hmc]

/-- Witness for C9: the invariant after dispatching `f` from the initial
context. -/
theorem C9_buffer_position_invariant_holds_witness :
    buffer_position_invariant
      { initial_context with
        multibyte_line := some 1
        multibyte_column := some 0
        token_buffer := ['f']
        column := 1 } :=
  C9_buffer_position_invariant_holds.2.1 strtod_model initial_context 'f' []
    _ [] (by decide) rfl


set_option exponentiation.threshold 4000 in
/-- Counterexample to C2 as stated: flushing the accumulated text `1e999`
(whose conversion overflows) does NOT abort the pass at that point and DOES
classify the text as an Atom token: the pass runs to completion with an Atom
lexeme for `1e999` in the output, the failure flag set, and the diagnostic
recorded. -/
theorem C2_counterexample_overflow_classified_as_atom :
    lex_program_run strtod_model ['1', 'e', '9', '9', '9'] =
      .ok { initial_context with
            lexemes :=
              [Lexeme.mk .TOKEN_ATOM (.as_atom ['1', 'e', '9', '9', '9']) 1 0]
            column := 5
            failed := true
            diagnostics := [.FloatOverflow 1 0 ['1', 'e', '9', '9', '9']] } :=
  rfl

set_option exponentiation.threshold 4000 in
/-- C2 (amended): when the numeric parse of a non-empty pending accumulation
reports overflow or underflow, the flush records a diagnostic carrying the
token's start position and raw text and sets the failure flag, but still
classifies the text as an Atom token and lets the pass continue; the lexer
exits with failure only after the whole pass (shown concretely on `1e999`). -/
theorem C2_amended_flush_range_error
    (conv : List Char → SstringConvertResult) (ctx : LexerContext)
    (hne : ctx.token_buffer ≠ []) :
    (conv ctx.token_buffer = .SSTRING_CONVERT_OVERFLOW →
      try_append_multibyte_lexeme conv ctx =
      { ctx with
        diagnostics := ctx.diagnostics ++
          [.FloatOverflow (ctx.multibyte_line.getD 0)
            (ctx.multibyte_column.getD 0) ctx.token_buffer]
        failed := true
        lexemes := ctx.lexemes ++
          [Lexeme.mk .TOKEN_ATOM (.as_atom ctx.token_buffer)
            (ctx.multibyte_line.getD 0) (ctx.multibyte_column.getD 0)]
        token_buffer := []
        multibyte_line := none
        multibyte_column := none }) ∧
    (conv ctx.token_buffer = .SSTRING_CONVERT_UNDERFLOW →
      try_append_multibyte_lexeme conv ctx =
      { ctx with
        diagnostics := ctx.diagnostics ++
          [.FloatUnderflow (ctx.multibyte_line.getD 0)
            (ctx.multibyte_column.getD 0) ctx.token_buffer]
        failed := true
        lexemes := ctx.lexemes ++
          [Lexeme.mk .TOKEN_ATOM (.as_atom ctx.token_buffer)
            (ctx.multibyte_line.getD 0) (ctx.multibyte_column.getD 0)]
        token_buffer := []
        multibyte_line := none
        multibyte_column := none }) ∧
    lex_program strtod_model ['1', 'e', '9', '9', '9'] =
      .error (.Failed [.FloatOverflow 1 0 ['1', 'e', '9', '9', '9']]) := by
  refine ⟨?_, ?_, rfl⟩ <;> intro hcv <;>
    (unfold try_append_multibyte_lexeme
     rw [if_neg (by simpa using hne), hcv])

set_option exponentiation.threshold 4000 in
/-- Witness for C2 (amended): the flush of `1e999` under the modelled strtod
conversion. -/
theorem C2_amended_flush_range_error_witness :
    try_append_multibyte_lexeme strtod_model
      { initial_context with
        token_buffer := ['1', 'e', '9', '9', '9']
        column := 5
        multibyte_line := some 1
        multibyte_column := some 0 } =
    { initial_context with
      column := 5
      diagnostics := [.FloatOverflow 1 0 ['1', 'e', '9', '9', '9']]
      failed := true
      lexemes := [Lexeme.mk .TOKEN_ATOM (.as_atom ['1', 'e', '9', '9', '9']) 1 0] } :=
  (C2_amended_flush_range_error strtod_model _ (by decide)).1 rfl

/-- Counterexample to C4 as stated: for the literal `\"\\q\"` (unknown escape
`\\q`), tokenization is not aborted at the point of detection and a String
token IS emitted for that literal (with the escape contributing no
character); the failure flag is set instead. -/
theorem C4_counterexample_string_token_emitted :
    (lex_program_run strtod_model ['"', '\\', 'q', '"']).map
        (fun ctx => (ctx.lexemes, ctx.failed)) =
      .ok ([Lexeme.mk .TOKEN_STRING (.as_string []) 1 0], true) := rfl

/-- C4 (amended): a backslash followed by a character other than `\"`, `\\`,
`n` or `t` makes the string sub-lexer record an unknown-escape diagnostic at
the backslash's position and set the failure flag, after which scanning
continues with no character appended to the payload; the pass fails only at
its end, as shown concretely on `\"\\q\"`. -/
theorem C4_amended_unknown_escape_continues :
    (∀ (ctx : LexerContext) (s : List Char) (d : Char) (rest : List Char),
      d ≠ '"' → d ≠ '\\' → d ≠ 'n' → d ≠ 't' →
      lex_string_loop ctx s ('\\' :: d :: rest) =
        lex_string_loop
          { ctx with
            diagnostics := ctx.diagnostics ++
              [.UnknownEscape ctx.line ctx.column d]
            failed := true
            column := ctx.column + 2 } s rest) ∧
    lex_program strtod_model ['"', '\\', 'q', '"'] =
      .error (.Failed [.UnknownEscape 1 1 'q']) := by
  refine ⟨?_, rfl⟩
  intro ctx s d rest h1 h2 h3 h4
  rw [lex_string_loop.eq_def]
  simp [h1, h2, h3, h4]

/-- Witness for C4 (amended): the unknown escape `\\q` at the start of a
string body. -/
theorem C4_amended_unknown_escape_continues_witness :
    lex_string_loop initial_context [] ['\\', 'q'] =
      lex_string_loop
        { initial_context with
          diagnostics := [.UnknownEscape 1 0 'q']
          failed := true
          column := 2 } [] [] :=
  C4_amended_unknown_escape_continues.1 initial_context [] 'q' []
    (by decide) (by decide) (by decide) (by decide)

/-- Counterexample to C3 as stated: the input `{` is non-empty, fails numeric
conversion and contains none of double-quote, parentheses, space, tab or
newline, yet it lexes to a single `TOKEN_BRACKET` token, not an Atom. -/
theorem C3_counterexample_brace_not_atom :
    strtod_model ['\x7b'] = .SSTRING_CONVERT_PARSE_FAIL ∧
    ('\x7b' : Char) ∉ ['"', '(', ')', ' ', '\t', '\n'] ∧
    lex_program strtod_model ['\x7b'] =
      .ok [Lexeme.mk .TOKEN_BRACKET (.as_bracket '\x7b') 1 0] ∧
    TokenType.TOKEN_BRACKET ≠ TokenType.TOKEN_ATOM :=
  ⟨rfl, by decide, rfl, by decide⟩

/-- Flushing a non-empty accumulation whose conversion is a parse failure
emits an Atom token with the raw text at the recorded start position. -/
theorem try_append_parse_fail (conv : List Char → SstringConvertResult)
    (ctx : LexerContext) (hne : ctx.token_buffer ≠ [])
    (h : conv ctx.token_buffer = .SSTRING_CONVERT_PARSE_FAIL) :
    try_append_multibyte_lexeme conv ctx =
    { ctx with
      lexemes := ctx.lexemes ++
        [Lexeme.mk .TOKEN_ATOM (.as_atom ctx.token_buffer)
          (ctx.multibyte_line.getD 0) (ctx.multibyte_column.getD 0)]
      token_buffer := []
      multibyte_line := none
      multibyte_column := none } := by
  unfold try_append_multibyte_lexeme
  rw [if_neg (by simpa using hne), h]

/-- C3 (amended): every non-empty text of at most `MAX_TOKEN_SIZE` characters
that fails numeric conversion and contains none of double-quote, parentheses,
space, tab, newline, single-quote or braces lexes to exactly one Atom token
whose payload is the text verbatim, at line 1, column 0. -/
theorem C3_amended_single_atom_token
    (conv : List Char → SstringConvertResult) (text : List Char)
    (hne : text ≠ [])
    (hchars : ∀ c ∈ text,
      c ∉ ['"', '(', ')', ' ', '\t', '\n', quote_character, '\x7b', '\x7d'])
    (hsize : text.length ≤ MAX_TOKEN_SIZE)
    (hconv : conv text = .SSTRING_CONVERT_PARSE_FAIL) :
    lex_program conv text = .ok [Lexeme.mk .TOKEN_ATOM (.as_atom text) 1 0] := by
  have hacc := lex_loop_accumulates conv text initial_context text.length hchars
    (by simpa [initial_context] using hsize) le_rfl
  simp only [initial_context, List.nil_append, List.isEmpty_iff, hne,
    if_neg, ite_false, Option.getD_none, if_false] at hacc
  have hflush := try_append_parse_fail conv
    { token_buffer := text, lexemes := [], line := 1, column := text.length,
      multibyte_line := some 1, multibyte_column := some 0, failed := false,
      diagnostics := [] } (by simpa using hne) (by simpa using hconv)
  unfold lex_program lex_program_run
  simp only [initial_context]
  rw [hacc]
  simp [hflush]

/-- Witness for C3 (amended): the input `foo`. -/
theorem C3_amended_single_atom_token_witness :
    lex_program strtod_model ['f', 'o', 'o'] =
      .ok [Lexeme.mk .TOKEN_ATOM (.as_atom ['f', 'o', 'o']) 1 0] :=
  C3_amended_single_atom_token strtod_model ['f', 'o', 'o']
    (by decide) (by decide) (by decide) rfl

end TLPIN
